import Mathlib

/-!
Verification development for the VKO digest service harvesters.

The Python sources under verification are the per-source harvest functions
of ach_handler.py, cbr_handler.py, kremlin_handler.py and roskazna_handler.py.
Pure computations (date parsing, item normalization, cutoff filtering,
pagination control flow) are embedded as executable Lean definitions; the
network boundary (requests.get and body parsing) is a parameter of each
harvester, as the spec treats the Page Fetcher as an external collaborator.
-/

/-- A calendar date, the shallow embedding of Python datetime.date values
(year, month, day). -/
structure Date where
  year : Nat
  month : Nat
  day : Nat
deriving DecidableEq, Repr

/-- A Python datetime value: a calendar date plus the time of day in
seconds.  Timezone offsets are dropped by the code after parsing
(replace(tzinfo=None) / .date()), so no offset is modelled. -/
structure DateTime where
  date : Date
  sec : Nat
deriving DecidableEq, Repr

/-- Strict order on dates, as Python compares datetime.date values:
lexicographic on (year, month, day). -/
def Date.lt (a b : Date) : Prop :=
  a.year < b.year ∨ (a.year = b.year ∧
    (a.month < b.month ∨ (a.month = b.month ∧ a.day < b.day)))

instance (a b : Date) : Decidable (Date.lt a b) := by
  unfold Date.lt; infer_instance

/-- Non-strict order on dates. -/
def Date.le (a b : Date) : Prop := Date.lt a b ∨ a = b

instance (a b : Date) : Decidable (Date.le a b) := by
  unfold Date.le; infer_instance

/-- Order on datetimes: lexicographic on (date, seconds), as Python
compares datetime values. -/
def DateTime.le (a b : DateTime) : Prop :=
  Date.lt a.date b.date ∨ (a.date = b.date ∧ a.sec ≤ b.sec)

instance (a b : DateTime) : Decidable (DateTime.le a b) := by
  unfold DateTime.le; infer_instance

theorem Date.le_of_not_lt : ∀ {a b : Date}, ¬ Date.lt a b → Date.le b a := by
  rintro ⟨ay, am, ad⟩ ⟨cy, cm, cd⟩ h
  simp only [Date.lt, Date.le, Date.mk.injEq, not_or, not_and, not_lt] at *
  omega

theorem Date.not_lt_of_le : ∀ {a b : Date}, Date.le a b → ¬ Date.lt b a := by
  rintro ⟨ay, am, ad⟩ ⟨cy, cm, cd⟩ h
  simp only [Date.lt, Date.le, Date.mk.injEq, not_or, not_and, not_lt] at *
  omega

theorem Date.le_of_lt : ∀ {a b : Date}, Date.lt a b → Date.le a b :=
  fun h => Or.inl h

theorem DateTime.date_le_of_le : ∀ {a b : DateTime}, DateTime.le a b → Date.le a.date b.date := by
  rintro ⟨ad, as⟩ ⟨bd, bs⟩ h
  rcases h with h | ⟨h, _⟩
  · exact Or.inl h
  · exact Or.inr h

/-! ### Character-level string helpers

The handlers use only a handful of Python string primitives: strip,
replace, split, join, int parsing.  They are embedded over List Char so
that every concrete evaluation reduces in the kernel. -/

/-- Whitespace recognized by Python str.strip (the subset occurring in the
feeds: space, tab, newline, carriage return, and the no-break space). -/
def isPySpace (c : Char) : Bool :=
  c = ' ' || c = '\t' || c = '\n' || c = '\r' || c = Char.ofNat 160

/-- Python str.strip on a character list. -/
def stripChars (l : List Char) : List Char :=
  ((l.dropWhile isPySpace).reverse.dropWhile isPySpace).reverse

/-- Python str.strip. -/
def pyStrip (s : String) : String := String.mk (stripChars s.data)

/-- Does the second list start with the first one? -/
def listStartsWith : List Char → List Char → Bool
  | [], _ => true
  | _ :: _, [] => false
  | p :: ps, x :: xs => p = x && listStartsWith ps xs

/-- Worker for replaceChars, structurally recursive on a fuel argument
that starts at the length of the list (each step consumes at least one
character, so the fuel never runs out on the initial call). -/
def replaceCharsAux (pat repl : List Char) : Nat → List Char → List Char
  | 0, l => l
  | _ + 1, [] => []
  | fuel + 1, x :: xs =>
    if pat ≠ [] ∧ listStartsWith pat (x :: xs) then
      repl ++ replaceCharsAux pat repl fuel ((x :: xs).drop pat.length)
    else
      x :: replaceCharsAux pat repl fuel xs

/-- Python str.replace on character lists, for a non-empty pattern (every
call site in the sources guards the pattern with a truthiness check). -/
def replaceChars (pat repl l : List Char) : List Char :=
  replaceCharsAux pat repl l.length l

/-- Python str.replace for a non-empty pattern. -/
def pyReplace (s pat repl : String) : String :=
  String.mk (replaceChars pat.data repl.data s.data)

/-- Split a character list on a separator character, like Python
str.split(sep) with a one-character separator. -/
def splitOnChar (c : Char) : List Char → List (List Char)
  | [] => [[]]
  | x :: xs =>
    let r := splitOnChar c xs
    if x = c then [] :: r
    else
      match r with
      | [] => [[x]]
      | h :: t => (x :: h) :: t

/-- Value of a decimal digit character, none for a non-digit. -/
def digitVal (c : Char) : Option Nat :=
  if '0' ≤ c ∧ c ≤ '9' then some (c.toNat - 48) else none

/-- Parse a non-empty all-digit character list as a Nat (the digit matching
performed by strptime / fromisoformat field patterns). -/
def natFromChars : List Char → Option Nat
  | [] => none
  | l => l.foldlM (fun acc c => (digitVal c).map (fun d => acc * 10 + d)) 0

/-- Is every character of the list a decimal digit (and the list non-empty)? -/
def allDigits (l : List Char) : Bool :=
  !l.isEmpty && l.all (fun c => ('0' ≤ c ∧ c ≤ '9' : Bool))

/-- utils.drop_nbsp: replace every no-break space by a plain space. -/
def drop_nbsp (s : String) : String :=
  String.mk (s.data.map (fun c => if c = Char.ofNat 160 then ' ' else c))

/-- Decimal digit character. -/
def digitChar (n : Nat) : Char := Char.ofNat (48 + n)

/-- Worker for natToChars, structurally recursive on a fuel argument. -/
def natToCharsAux : Nat → Nat → List Char
  | 0, _ => []
  | fuel + 1, n =>
    if n < 10 then [digitChar n]
    else natToCharsAux fuel (n / 10) ++ [digitChar (n % 10)]

/-- Decimal representation of a Nat as characters. -/
def natToChars (n : Nat) : List Char := natToCharsAux (n + 1) n

/-- Zero-padded two-digit rendering (strftime %m / %d). -/
def pad2 (n : Nat) : List Char :=
  if n < 10 then '0' :: natToChars n else natToChars n

/-- Zero-padded four-digit rendering (the year of date.isoformat). -/
def pad4 (n : Nat) : List Char :=
  (if n < 10 then ['0', '0', '0']
   else if n < 100 then ['0', '0']
   else if n < 1000 then ['0']
   else []) ++ natToChars n

/-- date.isoformat() / strftime("%Y-%m-%d"): the YYYY-MM-DD rendering of a
date, as produced for the pub_date output fields. -/
def formatDate (d : Date) : String :=
  String.mk (pad4 d.year ++ '-' :: pad2 d.month ++ '-' :: pad2 d.day)

/-! ### Calendar validation (datetime constructor checks inside strptime) -/

/-- Gregorian leap-year rule. -/
def isLeap (y : Nat) : Bool := (y % 4 = 0 && y % 100 ≠ 0) || y % 400 = 0

/-- Days in a month, as validated by the Python datetime constructor. -/
def daysInMonth (y m : Nat) : Nat :=
  if m = 2 then (if isLeap y then 29 else 28)
  else if m = 4 ∨ m = 6 ∨ m = 9 ∨ m = 11 then 30
  else 31

/-- A (year, month, day) triple datetime will accept. -/
def validDate (y m d : Nat) : Bool :=
  1 ≤ y && y ≤ 9999 && 1 ≤ m && m ≤ 12 && 1 ≤ d && d ≤ daysInMonth y m

/-! ### Date parsers

One parser per source format, embedding the strptime / fromisoformat calls
of the handlers.  Each accepts exactly the shapes the feeds emit and fails
(returns none) on anything else, which is what the ValueError paths of the
code observe. -/

/-- Russian month names in the genitive form emitted by ach.gov.ru, as
matched by strptime %B under the ru_RU locale set up by ach_handler. -/
def ruMonth (l : List Char) : Option Nat :=
  if l = "января".data then some 1
  else if l = "февраля".data then some 2
  else if l = "марта".data then some 3
  else if l = "апреля".data then some 4
  else if l = "мая".data then some 5
  else if l = "июня".data then some 6
  else if l = "июля".data then some 7
  else if l = "августа".data then some 8
  else if l = "сентября".data then some 9
  else if l = "октября".data then some 10
  else if l = "ноября".data then some 11
  else if l = "декабря".data then some 12
  else none

/-- English month abbreviations matched by strptime %b (C locale), in the
canonical form the RSS feeds emit. -/
def enMonth (l : List Char) : Option Nat :=
  if l = "Jan".data then some 1
  else if l = "Feb".data then some 2
  else if l = "Mar".data then some 3
  else if l = "Apr".data then some 4
  else if l = "May".data then some 5
  else if l = "Jun".data then some 6
  else if l = "Jul".data then some 7
  else if l = "Aug".data then some 8
  else if l = "Sep".data then some 9
  else if l = "Oct".data then some 10
  else if l = "Nov".data then some 11
  else if l = "Dec".data then some 12
  else none

/-- English weekday abbreviations matched by strptime %a. -/
def enWeekday (l : List Char) : Bool :=
  l = "Mon".data || l = "Tue".data || l = "Wed".data || l = "Thu".data ||
  l = "Fri".data || l = "Sat".data || l = "Sun".data

/-- datetime.strptime(s, "%d %B %Y") under the ru_RU locale, as used by
ach_handler on DATE_CREATE strings such as "27 января 2026"; yields the
calendar date (the parsed datetime has time 00:00:00). -/
def parseAchDate (s : String) : Option Date :=
  match splitOnChar ' ' s.data with
  | [ds, ms, ys] =>
    if allDigits ds && ds.length ≤ 2 && allDigits ys && ys.length ≤ 4 then
      match natFromChars ds, ruMonth ms, natFromChars ys with
      | some d, some m, some y =>
        if validDate y m d then some ⟨y, m, d⟩ else none
      | _, _, _ => none
    else none
  | _ => none

/-- A strptime %z offset of the form used by the feeds: a sign followed by
four digits, e.g. "+0300". -/
def zOffsetOk (l : List Char) : Bool :=
  match l with
  | s :: rest => (s = '+' || s = '-') && allDigits rest && rest.length = 4
  | [] => false

/-- An HH:MM:SS time-of-day field; yields seconds since midnight. -/
def parseHms (l : List Char) : Option Nat :=
  match splitOnChar ':' l with
  | [hs, ms, ss] =>
    if allDigits hs && hs.length ≤ 2 && allDigits ms && ms.length ≤ 2 &&
       allDigits ss && ss.length ≤ 2 then
      match natFromChars hs, natFromChars ms, natFromChars ss with
      | some h, some mi, some se =>
        if h ≤ 23 && mi ≤ 59 && se ≤ 59 then some (h * 3600 + mi * 60 + se)
        else none
      | _, _, _ => none
    else none
  | _ => none

/-- datetime.strptime(s, "%a, %d %b %Y %H:%M:%S %z"), the RFC-2822 feed
form used by cbr_handler.get_latest_cbr_docs and
roskazna_handler.parse_rss_date, e.g. "Mon, 29 Dec 2025 16:43:00 +0300".
The code drops the offset right after parsing (replace(tzinfo=None) or
date-only use), so the result keeps the wall-clock fields only. -/
def parseRfc2822 (s : String) : Option DateTime :=
  match splitOnChar ' ' s.data with
  | [wd, ds, ms, ys, hms, tz] =>
    match wd.reverse with
    | ',' :: wdrev =>
      if enWeekday wdrev.reverse && allDigits ds && ds.length ≤ 2 &&
         allDigits ys && ys.length ≤ 4 && zOffsetOk tz then
        match natFromChars ds, enMonth ms, natFromChars ys, parseHms hms with
        | some d, some m, some y, some sec =>
          if validDate y m d then some ⟨⟨y, m, d⟩, sec⟩ else none
        | _, _, _, _ => none
      else none
    | _ => none
  | _ => none

/-- A fromisoformat offset suffix "+HH:MM" or "-HH:MM". -/
def isoOffsetOk (l : List Char) : Bool :=
  match l with
  | s :: rest =>
    (s = '+' || s = '-') &&
    (match splitOnChar ':' rest with
     | [hs, ms] => allDigits hs && hs.length = 2 && allDigits ms && ms.length = 2
     | _ => false)
  | [] => false

/-- The date part "YYYY-MM-DD" of an ISO-8601 string. -/
def parseIsoDate (s : String) : Option Date :=
  match splitOnChar '-' s.data with
  | [ys, ms, ds] =>
    if allDigits ys && ys.length = 4 && allDigits ms && ms.length = 2 &&
       allDigits ds && ds.length = 2 then
      match natFromChars ys, natFromChars ms, natFromChars ds with
      | some y, some m, some d =>
        if validDate y m d then some ⟨y, m, d⟩ else none
      | _, _, _ => none
    else none
  | _ => none

/-- datetime.fromisoformat on the strings get_latest_cbr_news feeds it
(news_item["DT"].replace("Z", "+00:00")): a YYYY-MM-DD date, optionally
followed by a T or space separator, an HH:MM:SS time and an optional
±HH:MM offset. -/
def parseIsoDateTime (s : String) : Option DateTime :=
  let l := replaceChars "Z".data "+00:00".data s.data
  let dpart := l.take 10
  let rest := l.drop 10
  match parseIsoDate (String.mk dpart) with
  | none => none
  | some d =>
    match rest with
    | [] => some ⟨d, 0⟩
    | c :: t =>
      if c = 'T' || c = ' ' then
        let timePart := t.take 8
        let offPart := t.drop 8
        match parseHms timePart with
        | none => none
        | some sec =>
          if offPart.isEmpty || isoOffsetOk offPart then some ⟨d, sec⟩
          else none
      else none

/-! ### Common output model

The handlers return Python lists of dicts with heterogeneous values, so a
dict value is embedded as a small sum type: a string, a datetime object
(ach_handler stores the parsed datetime unserialized), Python None, or an
absent key (roskazna dicts carry no id key). -/

/-- A Python dict value as stored in the returned document dicts. -/
inductive PyVal where
  | vStr (s : String)
  | vDT (dt : DateTime)
  | vNone
  | vAbsent
deriving DecidableEq, Repr

/-- Is the value a string? -/
def PyVal.isStr : PyVal → Bool
  | .vStr _ => true
  | _ => false

/-- Lift an optional string the way the dicts store .get results: a missing
value becomes Python None. -/
def optPy : Option String → PyVal
  | some s => .vStr s
  | none => .vNone

/-- The common record shape of the returned dicts
(id, title, meta, link, pub_date). -/
structure Document where
  id : PyVal
  title : PyVal
  meta : PyVal
  link : PyVal
  pub_date : PyVal
deriving DecidableEq, Repr

/-! ### HTML text extraction primitives

Models of the two markup-stripping collaborators the handlers call
(BeautifulSoup(...).get_text() in ach_handler, TextExtractorHTMLParser in
roskazna_handler).  Both walk the markup and keep only character data
outside tags; the spec places these payload-parsing primitives at the
external-collaborator boundary, so they are modelled by their contract:
concatenation of the text chunks between tags. -/

/-- Split markup into the text chunks lying outside angle-bracket tags.
The Bool flag is true while inside a tag. -/
def textChunks : Bool → List Char → List (List Char)
  | _, [] => [[]]
  | true, c :: rest =>
    if c = '>' then textChunks false rest
    else textChunks true rest
  | false, c :: rest =>
    if c = '<' then [] :: textChunks true rest
    else
      match textChunks false rest with
      | [] => [[c]]
      | h :: t => (c :: h) :: t

/-- BeautifulSoup(html).get_text(): the concatenation of all character
data outside tags. -/
def soupGetText (s : String) : String :=
  String.mk ((textChunks false s.data).flatten)

/-- roskazna_handler.TextExtractorHTMLParser collects each data chunk
stripped of surrounding whitespace, drops empty chunks, and joins the
rest with single spaces (get_whole_HTML_element_text). -/
def get_whole_HTML_element_text (s : String) : String :=
  let parts := ((textChunks false s.data).map stripChars).filter
    (fun l => !l.isEmpty)
  String.mk ((parts.intersperse " ".data).flatten)

/-! ### ach_handler.get_ach_latest_docs

The single network call (requests.get of the fixed controls/list URL,
response.raise_for_status, response.json) is the fetcher boundary; its
outcome is a parameter.  Everything after it is embedded directly. -/

/-- One element of result.items in the ach JSON: the fields the handler
reads via .get, each possibly absent (Python None). -/
structure AchItem where
  itemId : Option String
  name : Option String
  dateCreate : Option String
  previewText : Option String
  filesReport : List (Option String)
deriving DecidableEq, Repr

/-- The parsed JSON body: raw_data.get("result", {}).get("items", []),
with both levels possibly missing. -/
structure AchResponse where
  items : Option (List AchItem)
deriving DecidableEq, Repr

/-- Outcome of the one ach fetch: a network error
(requests.exceptions.RequestException), an invalid JSON body (ValueError),
or a parsed body. -/
inductive AchFetch where
  | transportError
  | invalidJson
  | ok (resp : AchResponse)

/-- The fixed request URL of ach_handler (count=100, page=1). -/
def achApiUrl : String :=
  "https://ach.gov.ru/api/v1/controls/list?count=100&page=1"

/-- The per-item body of the ach processing loop: skip on a falsy
DATE_CREATE, skip on a strptime failure, filter by
parsed_document_date >= start_date, and otherwise build the document dict
(pub_date keeps the datetime object itself). -/
def achProcessItem (start_date : DateTime) (it : AchItem) : Option Document :=
  match it.dateCreate with
  | none => none
  | some ds =>
    if ds = "" then none
    else
      match parseAchDate ds with
      | none => none
      | some d =>
        if DateTime.le start_date ⟨d, 0⟩ then
          some { id := optPy it.itemId,
                 title := optPy it.name,
                 meta := .vStr (pyStrip (soupGetText (it.previewText.getD ""))),
                 link := optPy (match it.filesReport with
                                | [] => none
                                | f :: _ => f),
                 pub_date := .vDT ⟨d, 0⟩ }
        else none

/-- ach_handler.get_ach_latest_docs: one fetch of the fixed URL; errors
and an empty items list yield the empty list; otherwise the items are
processed one by one.  The second component records the URLs requested
during the call. -/
def get_ach_latest_docs (start_date : DateTime)
    (fetch : String → AchFetch) : List Document × List String :=
  match fetch achApiUrl with
  | .transportError => ([], [achApiUrl])
  | .invalidJson => ([], [achApiUrl])
  | .ok resp =>
    let audit_items := resp.items.getD []
    (audit_items.filterMap (achProcessItem start_date), [achApiUrl])

/-! ### cbr_handler.get_latest_cbr_docs

RSS items are parsed with xml.etree; item.find(tag) yields either no
element or an element whose .text may be Python None.  A field is
therefore an Option (Option String): outer none = element absent,
inner none = element present with text None.  Every AttributeError or
ValueError inside the per-item try block is caught and skips the item. -/

/-- One RSS item of the cbr navr feed, as read by the handler. -/
structure CbrRssItem where
  title : Option (Option String)
  link : Option (Option String)
  guid : Option (Option String)
  description : Option (Option String)
  pubDate : Option (Option String)
deriving DecidableEq, Repr

/-- Errors the cbr and roskazna RSS harvesters re-raise to the caller:
a requests.RequestException or an ET.ParseError. -/
inductive HarvestError where
  | transport
  | parse
deriving DecidableEq, Repr

/-- Outcome of fetching and XML-parsing an RSS feed. -/
inductive RssFetch (Item : Type) where
  | requestError
  | xmlError
  | ok (items : List Item)

/-- The per-item body of get_latest_cbr_docs: skip when a required
element (title, link, pubDate) is absent, skip on any date ValueError or
attribute error inside the try block, keep only items strictly newer than
start_date, and build the document dict. -/
def processCbrRssItem (start : Date) (it : CbrRssItem) : Option Document :=
  match it.title, it.link, it.pubDate with
  | some tText, some lText, some pText =>
    match pText with
    | none => none
    | some pds =>
      match parseRfc2822 (pyStrip pds) with
      | none => none
      | some dt =>
        if Date.lt start dt.date then
          match it.guid with
          | none => none
          | some gText =>
            match gText with
            | none => none
            | some g =>
              match tText, lText with
              | some t, some l =>
                match it.description with
                | some none => none
                | some (some dx) =>
                  some { id := .vStr (pyStrip g),
                         title := .vStr (pyStrip t),
                         meta := .vStr (pyStrip dx),
                         link := .vStr (pyStrip l),
                         pub_date := .vStr (formatDate dt.date) }
                | none =>
                  some { id := .vStr (pyStrip g),
                         title := .vStr (pyStrip t),
                         meta := .vStr "",
                         link := .vStr (pyStrip l),
                         pub_date := .vStr (formatDate dt.date) }
              | _, _ => none
        else none
  | _, _, _ => none

/-- cbr_handler.get_latest_cbr_docs: start_date is reduced to its date
part, a network or XML error is re-raised, and each RSS item is processed
tolerantly. -/
def get_latest_cbr_docs (start_date : DateTime)
    (fetch : RssFetch CbrRssItem) : Except HarvestError (List Document) :=
  let start := start_date.date
  match fetch with
  | .requestError => .error .transport
  | .xmlError => .error .parse
  | .ok rss_items => .ok (rss_items.filterMap (processCbrRssItem start))

/-! ### roskazna_handler.get_latest_roskazna_docs

get_element_text collapses an absent element, a None text and an empty
text to None/empty outcomes; its result is modelled directly as
Option String (none = element absent or text None; the text is already
stripped).  extract_news_item_data turns any exception inside its try
block into a skipped item (return None). -/

/-- One RSS item of the roskazna feed, each field holding the
get_element_text result for the corresponding tag. -/
structure RoskaznaItem where
  title : Option String
  link : Option String
  description : Option String
  pubDate : Option String
deriving DecidableEq, Repr

/-- roskazna_handler.clean_cdata: strip, then peel one CDATA wrapper. -/
def clean_cdata (text : String) : String :=
  let cleaned := pyStrip text
  if listStartsWith "<![CDATA[".data cleaned.data &&
     listStartsWith "]]>".data.reverse cleaned.data.reverse then
    pyStrip (String.mk ((cleaned.data.drop 9).reverse.drop 3).reverse)
  else cleaned

/-- roskazna_handler.extract_news_item_data.  A falsy pubDate text skips
the item; a parse_rss_date failure propagates to the outer except and
skips the item; a date before start_date.date() skips the item; a missing
title raises inside clean_cdata and skips the item; a missing description
makes the inner try leave news_description unbound, so building the dict
raises and the outer except skips the item.  The returned dict has no id
key. -/
def extract_news_item_data (start_date : DateTime) (it : RoskaznaItem) :
    Option Document :=
  match it.pubDate with
  | none => none
  | some ps =>
    if ps = "" then none
    else
      match parseRfc2822 ps with
      | none => none
      | some dt =>
        if Date.lt dt.date start_date.date then none
        else
          match it.title with
          | none => none
          | some t =>
            match it.description with
            | none => none
            | some d =>
              some { id := .vAbsent,
                     title := .vStr (clean_cdata t),
                     meta := .vStr (get_whole_HTML_element_text (clean_cdata d)),
                     link := optPy it.link,
                     pub_date := .vStr (formatDate dt.date) }

/-- roskazna_handler.get_latest_roskazna_docs: a network or XML error is
re-raised; otherwise every item is passed through extract_news_item_data
and the non-None results are collected. -/
def get_latest_roskazna_docs (start_date : DateTime)
    (fetch : RssFetch RoskaznaItem) : Except HarvestError (List Document) :=
  match fetch with
  | .requestError => .error .transport
  | .xmlError => .error .parse
  | .ok news_items =>
    .ok (news_items.filterMap (extract_news_item_data start_date))

/-! ### cbr_handler.get_latest_cbr_news

The pagination loop: fetch page 0, 1, 2, ... with fixed query parameters;
stop on an empty page, on a transport error, or on a KeyError/ValueError
while processing a page (the except clause sits at the page level and
breaks the whole loop); stop after a page whose scan reaches an item
older than start_date.date().  The Python loop has no iteration cap, so
the embedding is driven by a fuel argument; an exhausted fuel is reported
as a distinct outcome. -/

/-- One JSON item of the FPEventAndPress endpoint, with the fields the
handler reads.  dt is the "DT" value accessed with square brackets (a
missing key raises KeyError); the others are read with .get. -/
structure CbrNewsItem where
  dt : Option String
  doc_htm : Option String
  name_doc : Option String
  important : Bool
  video : Bool
deriving DecidableEq, Repr

/-- Outcome of fetching one page of the news endpoint: a
requests.RequestException, a .json() ValueError, or a parsed item list. -/
inductive NewsPage where
  | transportError
  | badJson
  | ok (items : List CbrNewsItem)

/-- The meta string of a news item: the joined Важное/Видео flags or the
empty string. -/
def newsMetaString (it : CbrNewsItem) : String :=
  let meta_parts :=
    (if it.important then ["Важное"] else []) ++
    (if it.video then ["Видео"] else [])
  match meta_parts with
  | [] => ""
  | parts => String.intercalate ", " parts

/-- The document dict appended for one qualifying news item. -/
def mkNewsDoc (it : CbrNewsItem) (dt : DateTime) : Document :=
  let article_id := it.doc_htm.getD ""
  { id := .vStr article_id,
    title := .vStr (drop_nbsp (it.name_doc.getD "")),
    link := .vStr ("https://cbr.ru/press/event/?id=" ++ article_id),
    meta := .vStr (newsMetaString it),
    pub_date := .vStr (formatDate dt.date) }

/-- The parsed DT value of a news item: none when the key is missing
(KeyError) or fromisoformat fails (ValueError). -/
def newsItemDT (it : CbrNewsItem) : Option DateTime :=
  match it.dt with
  | none => none
  | some s => parseIsoDateTime s

/-- Result of the for-loop over one page's items: every item qualified,
or the scan hit a pre-cutoff item (break with the flag cleared), or an
item raised KeyError/ValueError (caught at page level, loop aborted).
Each constructor carries the documents appended before the stop. -/
inductive ItemScan where
  | allOk (docs : List Document)
  | cutoffHit (docs : List Document)
  | itemError (docs : List Document)
deriving DecidableEq, Repr

/-- The for-loop of get_latest_cbr_news over one page. -/
def scanNewsItems (start : Date) : List CbrNewsItem → ItemScan
  | [] => .allOk []
  | it :: rest =>
    match newsItemDT it with
    | none => .itemError []
    | some dt =>
      if Date.lt dt.date start then .cutoffHit []
      else
        let doc := mkNewsDoc it dt
        match scanNewsItems start rest with
        | .allOk ds => .allOk (doc :: ds)
        | .cutoffHit ds => .cutoffHit (doc :: ds)
        | .itemError ds => .itemError (doc :: ds)

/-- A finished run carries the collected documents and the number of page
fetches issued; outOfFuel reports that the Python loop would still be
running after that many fetches. -/
inductive NewsRun where
  | finished (docs : List Document) (fetches : Nat)
  | outOfFuel (docs : List Document) (fetches : Nat)
deriving DecidableEq, Repr

/-- The while loop of get_latest_cbr_news.  page is the next page index
to request and also the number of fetches already issued (pages are
requested consecutively from 0). -/
def cbrNewsLoop (fetch : Nat → NewsPage) (start : Date) :
    Nat → Nat → List Document → NewsRun
  | 0, page, acc => .outOfFuel acc page
  | fuel + 1, page, acc =>
    match fetch page with
    | .transportError => .finished acc (page + 1)
    | .badJson => .finished acc (page + 1)
    | .ok items =>
      if items.isEmpty then .finished acc (page + 1)
      else
        match scanNewsItems start items with
        | .itemError ds => .finished (acc ++ ds) (page + 1)
        | .cutoffHit ds => .finished (acc ++ ds) (page + 1)
        | .allOk ds => cbrNewsLoop fetch start fuel (page + 1) (acc ++ ds)

/-- cbr_handler.get_latest_cbr_news: run the pagination loop from page 0
with an empty accumulator, comparing against start_date.date(). -/
def get_latest_cbr_news (start_date : DateTime) (fetch : Nat → NewsPage)
    (fuel : Nat) : NewsRun :=
  cbrNewsLoop fetch start_date.date fuel 0 []

/-- The documents carried by a run, finished or not. -/
def NewsRun.docs : NewsRun → List Document
  | .finished ds _ => ds
  | .outOfFuel ds _ => ds

/-- The number of page fetches issued by a run. -/
def NewsRun.fetches : NewsRun → Nat
  | .finished _ n => n
  | .outOfFuel _ n => n

/-- Did the Python loop actually terminate within the given fuel? -/
def NewsRun.isFinished : NewsRun → Bool
  | .finished _ _ => true
  | .outOfFuel _ _ => false

/-! ### kremlin_handler.get_latest_kremlin_docs

The page-number loop over the acts/bank/search listing: fetch page 1, 2,
3, ... (start_date and end_date only shape the date_since/date_till query
parameters sent to the server; no client-side date comparison exists).
The loop breaks on a transport error, on any unexpected exception, on a
page without the events container, and on a page whose container holds no
document entries.  Like the news loop it has no iteration cap, so it is
fuel-driven. -/

/-- The time element inside a document link: its visible text
(get_text(strip=True)) and its datetime attribute (None when absent). -/
structure KremlinTimeEl where
  text : String
  datetimeAttr : Option String
deriving DecidableEq, Repr

/-- The anchor inside the h3 title of one listing entry. -/
structure KremlinLinkEl where
  href : Option String
  text : String
  metaText : Option String
  timeEl : Option KremlinTimeEl
deriving DecidableEq, Repr

/-- The h3.hentry__title element of one listing entry. -/
structure KremlinTitleEl where
  linkEl : Option KremlinLinkEl
deriving DecidableEq, Repr

/-- One div.hentry entry of the listing page. -/
structure KremlinEntry where
  titleEl : Option KremlinTitleEl
deriving DecidableEq, Repr

/-- The dict parse_single_document_entry builds: title, meta, date text,
datetime attribute and link (distinct key set from the other sources; no
id and no pub_date key). -/
structure KremlinDoc where
  title : String
  meta : String
  date : String
  datetimeAttr : PyVal
  link : String
deriving DecidableEq, Repr

/-- kremlin_handler base URL prefixed to entry hrefs. -/
def kremlinBaseUrl : String := "http://kremlin.ru"

/-- kremlin_handler.parse_single_document_entry: None on a missing title
element, a missing anchor, or a falsy href; otherwise a document whose
date and datetime degrade to empty strings when the time element is
absent (time present with no datetime attribute yields Python None). -/
def parse_single_document_entry (e : KremlinEntry) (base : String) :
    Option KremlinDoc :=
  match e.titleEl with
  | none => none
  | some te =>
    match te.linkEl with
    | none => none
    | some le =>
      match le.href with
      | none => none
      | some href =>
        if href = "" then none
        else
          let document_title := le.text
          let document_meta :=
            match le.metaText with
            | some m => drop_nbsp m
            | none => ""
          let document_date :=
            match le.timeEl with
            | some t => drop_nbsp t.text
            | none => ""
          let document_datetime : PyVal :=
            match le.timeEl with
            | some t => optPy t.datetimeAttr
            | none => .vStr ""
          let clean1 :=
            if document_meta = "" then document_title
            else drop_nbsp (pyStrip (pyReplace document_title document_meta ""))
          let clean2 :=
            if document_date = "" then clean1
            else drop_nbsp (pyStrip (pyReplace clean1 document_date ""))
          some { title := clean2,
                 meta := document_meta,
                 date := document_date,
                 datetimeAttr := document_datetime,
                 link := base ++ href }

/-- Outcome of fetching and soup-parsing one listing page: a transport
error, an unexpected exception, a page without the events container, or
the found document entries. -/
inductive KremlinPage where
  | transportError
  | otherError
  | noContainer
  | entries (es : List KremlinEntry)

/-- Run outcome of the kremlin loop, as for the news loop. -/
inductive KremlinRun where
  | finished (docs : List KremlinDoc) (fetches : Nat)
  | outOfFuel (docs : List KremlinDoc) (fetches : Nat)
deriving DecidableEq, Repr

/-- The while True loop of get_latest_kremlin_docs.  page is the
current_page counter (1-based), so page - 1 fetches have completed when
an iteration begins. -/
def kremlinLoop (fetch : Nat → KremlinPage) :
    Nat → Nat → List KremlinDoc → KremlinRun
  | 0, page, acc => .outOfFuel acc (page - 1)
  | fuel + 1, page, acc =>
    match fetch page with
    | .transportError => .finished acc page
    | .otherError => .finished acc page
    | .noContainer => .finished acc page
    | .entries [] => .finished acc page
    | .entries (e :: es) =>
      let docs := (e :: es).filterMap
        (fun entry => parse_single_document_entry entry kremlinBaseUrl)
      kremlinLoop fetch fuel (page + 1) (acc ++ docs)

/-- kremlin_handler.get_latest_kremlin_docs.  start_date and end_date are
sent to the server inside the request parameters and never compared
against any item client-side; the fetcher is indexed by page number. -/
def get_latest_kremlin_docs (start_date end_date : DateTime)
    (fetch : Nat → KremlinPage) (fuel : Nat) : KremlinRun :=
  kremlinLoop fetch fuel 1 []

/-- The documents carried by a kremlin run. -/
def KremlinRun.docs : KremlinRun → List KremlinDoc
  | .finished ds _ => ds
  | .outOfFuel ds _ => ds

/-- The number of page fetches issued by a kremlin run. -/
def KremlinRun.fetches : KremlinRun → Nat
  | .finished _ n => n
  | .outOfFuel _ n => n

/-! ### Lemmas about the news pagination loop -/

/-- The documents accumulated by a page scan before it stopped. -/
def ItemScan.docs : ItemScan → List Document
  | .allOk ds => ds
  | .cutoffHit ds => ds
  | .itemError ds => ds

/-- The document a single news item contributes when its date parses. -/
def newsDocOf (it : CbrNewsItem) : Option Document :=
  (newsItemDT it).map (mkNewsDoc it)

/-- A news item whose DT parses to a date not before the cutoff. -/
def newsFresh (start : Date) (it : CbrNewsItem) : Prop :=
  ∃ dt, newsItemDT it = some dt ∧ ¬ Date.lt dt.date start

theorem scanNewsItems_eq_allOk {start : Date} {l : List CbrNewsItem}
    (h : ∀ it ∈ l, newsFresh start it) :
    scanNewsItems start l = .allOk (l.filterMap newsDocOf) := by
  induction l with
  | nil => rfl
  | cons it rest ih =>
    obtain ⟨dt, hdt, hlt⟩ := h it (by simp)
    have ihr := ih (fun x hx => h x (by simp [hx]))
    simp only [scanNewsItems, hdt, if_neg hlt, ihr, List.filterMap_cons,
      newsDocOf, Option.map_some']

theorem scanNewsItems_append_itemError {start : Date} {l : List CbrNewsItem}
    {it : CbrNewsItem} {rest : List CbrNewsItem}
    (h : ∀ x ∈ l, newsFresh start x) (hbad : newsItemDT it = none) :
    scanNewsItems start (l ++ it :: rest) = .itemError (l.filterMap newsDocOf) := by
  induction l with
  | nil => simp only [List.nil_append, scanNewsItems, hbad, List.filterMap_nil]
  | cons x xs ih =>
    obtain ⟨dt, hdt, hlt⟩ := h x (by simp)
    have ihr := ih (fun y hy => h y (by simp [hy]))
    simp only [List.cons_append, scanNewsItems, hdt, if_neg hlt, List.append_eq,
      ihr, List.filterMap_cons, newsDocOf, Option.map_some']

theorem scanNewsItems_append_cutoff {start : Date} {l : List CbrNewsItem}
    {it : CbrNewsItem} {rest : List CbrNewsItem} {dt : DateTime}
    (h : ∀ x ∈ l, newsFresh start x) (hdt : newsItemDT it = some dt)
    (hold : Date.lt dt.date start) :
    scanNewsItems start (l ++ it :: rest) = .cutoffHit (l.filterMap newsDocOf) := by
  induction l with
  | nil => simp only [List.nil_append, scanNewsItems, hdt, if_pos hold,
      List.filterMap_nil]
  | cons x xs ih =>
    obtain ⟨dt2, hdt2, hlt2⟩ := h x (by simp)
    have ihr := ih (fun y hy => h y (by simp [hy]))
    simp only [List.cons_append, scanNewsItems, hdt2, if_neg hlt2, List.append_eq,
      ihr, List.filterMap_cons, newsDocOf, Option.map_some']

theorem scanNewsItems_docs_sound {start : Date} {l : List CbrNewsItem} :
    ∀ doc ∈ (scanNewsItems start l).docs,
      ∃ d, doc.pub_date = .vStr (formatDate d) ∧ ¬ Date.lt d start := by
  induction l with
  | nil =>
    intro doc hdoc
    simp [scanNewsItems, ItemScan.docs] at hdoc
  | cons it rest ih =>
    intro doc hdoc
    by_cases hdt : ∃ dt, newsItemDT it = some dt
    · obtain ⟨dt, hdt⟩ := hdt
      by_cases hold : Date.lt dt.date start
      · simp [scanNewsItems, hdt, if_pos hold, ItemScan.docs] at hdoc
      · simp only [scanNewsItems, hdt, if_neg hold] at hdoc
        rcases hscan : scanNewsItems start rest with ds | ds | ds <;>
          rw [hscan] at hdoc <;>
          simp only [ItemScan.docs, List.mem_cons] at hdoc <;>
          rcases hdoc with rfl | hdoc
        · exact ⟨dt.date, rfl, hold⟩
        · exact ih doc (by rw [hscan]; exact hdoc)
        · exact ⟨dt.date, rfl, hold⟩
        · exact ih doc (by rw [hscan]; exact hdoc)
        · exact ⟨dt.date, rfl, hold⟩
        · exact ih doc (by rw [hscan]; exact hdoc)
    · have hnone : newsItemDT it = none := by
        cases h : newsItemDT it with
        | none => rfl
        | some dt => exact absurd ⟨dt, h⟩ hdt
      simp [scanNewsItems, hnone, ItemScan.docs] at hdoc

theorem cbrNewsLoop_docs_sound {fetch : Nat → NewsPage} {start : Date} :
    ∀ (fuel page : Nat) (acc : List Document),
      (∀ doc ∈ acc, ∃ d, doc.pub_date = .vStr (formatDate d) ∧ ¬ Date.lt d start) →
      ∀ doc ∈ (cbrNewsLoop fetch start fuel page acc).docs,
        ∃ d, doc.pub_date = .vStr (formatDate d) ∧ ¬ Date.lt d start := by
  intro fuel
  induction fuel with
  | zero =>
    intro page acc hacc doc hdoc
    exact hacc doc hdoc
  | succ n ih =>
    intro page acc hacc doc hdoc
    rcases hf : fetch page with _ | _ | items <;>
      simp only [cbrNewsLoop, hf] at hdoc
    · exact hacc doc (by simpa [NewsRun.docs] using hdoc)
    · exact hacc doc (by simpa [NewsRun.docs] using hdoc)
    · by_cases hemp : items.isEmpty
      · rw [if_pos hemp] at hdoc
        exact hacc doc (by simpa [NewsRun.docs] using hdoc)
      · rw [if_neg hemp] at hdoc
        rcases hscan : scanNewsItems start items with ds | ds | ds <;>
          rw [hscan] at hdoc
        · have hacc2 : ∀ x ∈ acc ++ ds,
              ∃ d, x.pub_date = .vStr (formatDate d) ∧ ¬ Date.lt d start := by
            intro x hx
            rcases List.mem_append.mp hx with hin | hin
            · exact hacc x hin
            · exact scanNewsItems_docs_sound x (by rw [hscan]; exact hin)
          exact ih (page + 1) (acc ++ ds) hacc2 doc hdoc
        · have hdoc2 : doc ∈ acc ++ ds := by simpa [NewsRun.docs] using hdoc
          rcases List.mem_append.mp hdoc2 with hin | hin
          · exact hacc doc hin
          · exact scanNewsItems_docs_sound doc (by rw [hscan]; exact hin)
        · have hdoc2 : doc ∈ acc ++ ds := by simpa [NewsRun.docs] using hdoc
          rcases List.mem_append.mp hdoc2 with hin | hin
          · exact hacc doc hin
          · exact scanNewsItems_docs_sound doc (by rw [hscan]; exact hin)

/-! ### Per-item soundness of the normalizers -/

theorem achProcessItem_sound {start : DateTime} {it : AchItem} {doc : Document}
    (h : achProcessItem start it = some doc) :
    ∃ dt, doc.pub_date = .vDT dt ∧ DateTime.le start dt := by
  unfold achProcessItem at h
  repeat' split at h
  all_goals first
    | (obtain rfl := Option.some.inj h
       exact ⟨_, rfl, by assumption⟩)
    | exact absurd h (by simp)

theorem processCbrRssItem_sound {start : Date} {it : CbrRssItem} {doc : Document}
    (h : processCbrRssItem start it = some doc) :
    ∃ d, doc.pub_date = .vStr (formatDate d) ∧ Date.lt start d := by
  unfold processCbrRssItem at h
  repeat' split at h
  all_goals first
    | (obtain rfl := Option.some.inj h
       exact ⟨_, rfl, by assumption⟩)
    | exact absurd h (by simp)

theorem extract_news_item_data_sound {start : DateTime} {it : RoskaznaItem}
    {doc : Document} (h : extract_news_item_data start it = some doc) :
    ∃ d, doc.pub_date = .vStr (formatDate d) ∧ ¬ Date.lt d start.date := by
  unfold extract_news_item_data at h
  repeat' split at h
  all_goals first
    | (obtain rfl := Option.some.inj h
       exact ⟨_, rfl, by assumption⟩)
    | exact absurd h (by simp)

/-! ### Concrete fixtures used by witnesses and counterexamples -/

/-- A cutoff datetime of 2026-01-01 00:00:00. -/
def dtW : DateTime := ⟨⟨2026, 1, 1⟩, 0⟩

/-- A fully populated ach item dated 27 января 2026. -/
def achItemW : AchItem :=
  ⟨some "123", some "Проверка", some "27 января 2026",
   some "<p>превью</p>", [some "/files/report.pdf"]⟩

/-- A fetcher answering the ach request with a single-item page. -/
def achFetchW : String → AchFetch := fun _ => .ok ⟨some [achItemW]⟩

/-- The document ach_handler builds from achItemW. -/
def achDocW : Document :=
  ⟨.vStr "123", .vStr "Проверка", .vStr "превью",
   .vStr "/files/report.pdf", .vDT ⟨⟨2026, 1, 27⟩, 0⟩⟩

/-- A fully populated cbr RSS item dated Mon, 02 Feb 2026. -/
def cbrItemW : CbrRssItem :=
  ⟨some (some "Указание"), some (some "https://cbr.ru/doc"), some (some "guid-1"),
   some (some "Описание"), some (some "Mon, 02 Feb 2026 16:43:00 +0300")⟩

/-- An RSS fetch returning just cbrItemW. -/
def cbrFetchW : RssFetch CbrRssItem := .ok [cbrItemW]

/-- The document get_latest_cbr_docs builds from cbrItemW. -/
def cbrDocW : Document :=
  ⟨.vStr "guid-1", .vStr "Указание", .vStr "Описание",
   .vStr "https://cbr.ru/doc", .vStr "2026-02-02"⟩

/-- A fully populated cbr news item dated 2026-02-01. -/
def newsItemW : CbrNewsItem :=
  ⟨some "2026-02-01T10:00:00Z", some "doc1", some "Новость", true, false⟩

/-- A news fetcher with one item on page 0 and nothing afterwards. -/
def newsFetchOnePageW : Nat → NewsPage :=
  fun p => if p = 0 then .ok [newsItemW] else .ok []

/-- The document get_latest_cbr_news builds from newsItemW. -/
def newsDocW : Document :=
  ⟨.vStr "doc1", .vStr "Новость", .vStr "Важное",
   .vStr "https://cbr.ru/press/event/?id=doc1", .vStr "2026-02-01"⟩

/-- A fully populated roskazna item dated Mon, 02 Feb 2026. -/
def roskItemW : RoskaznaItem :=
  ⟨some "Заголовок", some "https://roskazna.gov.ru/n",
   some "<p>текст</p> ещё", some "Mon, 02 Feb 2026 13:05:17 +0300"⟩

/-- An RSS fetch returning just roskItemW. -/
def roskFetchW : RssFetch RoskaznaItem := .ok [roskItemW]

/-- The document get_latest_roskazna_docs builds from roskItemW. -/
def roskDocW : Document :=
  ⟨.vAbsent, .vStr "Заголовок", .vStr "текст ещё",
   .vStr "https://roskazna.gov.ru/n", .vStr "2026-02-02"⟩

/-- A kremlin listing entry whose time element shows 1 января 2000, far
before the 2026 cutoff used with it. -/
def kremlinOldEntryW : KremlinEntry :=
  ⟨some ⟨some ⟨some "/acts/bank/100", "Указ Президента", none,
    some ⟨"1 января 2000 года", some "2000-01-01"⟩⟩⟩⟩

/-- A kremlin fetcher serving that entry on page 1 and ending on page 2. -/
def kremlinFetchOldW : Nat → KremlinPage :=
  fun p => if p = 1 then .entries [kremlinOldEntryW] else .noContainer

/-- The document the kremlin harvester builds from kremlinOldEntryW. -/
def kremlinOldDocW : KremlinDoc :=
  ⟨"Указ Президента", "", "1 января 2000 года", .vStr "2000-01-01",
   "http://kremlin.ru/acts/bank/100"⟩

/-- C1, counterexample.  With the cutoff 2026-01-01,
get_latest_kremlin_docs returns a document whose time text and datetime
attribute denote 2000-01-01, a date strictly before the cutoff: the
kremlin harvester performs no client-side date comparison (the cutoff is
only sent to the server as a query parameter), so the claimed invariant
"every returned document is dated on or after the cutoff" fails on it. -/
theorem claim_C1_counterexample :
    get_latest_kremlin_docs dtW dtW kremlinFetchOldW 10
      = .finished [kremlinOldDocW] 2 ∧
    kremlinOldDocW.datetimeAttr = .vStr "2000-01-01" ∧
    parseIsoDate "2000-01-01" = some ⟨2000, 1, 1⟩ ∧
    Date.lt ⟨2000, 1, 1⟩ dtW.date := by
  refine ⟨by decide, rfl, by decide, by decide⟩

/-- C1, amended.  For the four harvesters that filter client-side, every
returned document carries a publication date on or after the caller's
cutoff date: ach_handler compares parsed >= start_date, get_latest_cbr_docs
compares parsed > start_date.date(), get_latest_cbr_news and
get_latest_roskazna_docs drop items with parsed.date() < start_date.date().
get_latest_kremlin_docs is excluded: it does not compare dates client-side
(see the counterexample). -/
theorem claim_C1_amended :
    (∀ (start : DateTime) (fetch : String → AchFetch) (doc : Document),
       doc ∈ (get_ach_latest_docs start fetch).1 →
       ∃ dt, doc.pub_date = .vDT dt ∧ Date.le start.date dt.date) ∧
    (∀ (start : DateTime) (fetch : RssFetch CbrRssItem)
       (docs : List Document) (doc : Document),
       get_latest_cbr_docs start fetch = .ok docs → doc ∈ docs →
       ∃ d, doc.pub_date = .vStr (formatDate d) ∧ Date.le start.date d) ∧
    (∀ (start : DateTime) (fetch : Nat → NewsPage) (fuel : Nat) (doc : Document),
       doc ∈ (get_latest_cbr_news start fetch fuel).docs →
       ∃ d, doc.pub_date = .vStr (formatDate d) ∧ Date.le start.date d) ∧
    (∀ (start : DateTime) (fetch : RssFetch RoskaznaItem)
       (docs : List Document) (doc : Document),
       get_latest_roskazna_docs start fetch = .ok docs → doc ∈ docs →
       ∃ d, doc.pub_date = .vStr (formatDate d) ∧ Date.le start.date d) := by
  refine ⟨?_, ?_, ?_, ?_⟩
  · intro start fetch doc hm
    rcases hf : fetch achApiUrl with _ | _ | resp <;>
      simp only [get_ach_latest_docs, hf] at hm
    · simp at hm
    · simp at hm
    · obtain ⟨it, _, hit⟩ := List.mem_filterMap.mp hm
      obtain ⟨dt, hpd, hle⟩ := achProcessItem_sound hit
      exact ⟨dt, hpd, DateTime.date_le_of_le hle⟩
  · intro start fetch docs doc heq hm
    rcases fetch with _ | _ | items <;> simp only [get_latest_cbr_docs] at heq
    · simp at heq
    · simp at heq
    · obtain rfl := Except.ok.inj heq
      obtain ⟨it, _, hit⟩ := List.mem_filterMap.mp hm
      obtain ⟨d, hpd, hlt⟩ := processCbrRssItem_sound hit
      exact ⟨d, hpd, Date.le_of_lt hlt⟩
  · intro start fetch fuel doc hm
    obtain ⟨d, hpd, hnlt⟩ :=
      cbrNewsLoop_docs_sound fuel 0 [] (by simp) doc hm
    exact ⟨d, hpd, Date.le_of_not_lt hnlt⟩
  · intro start fetch docs doc heq hm
    rcases fetch with _ | _ | items <;>
      simp only [get_latest_roskazna_docs] at heq
    · simp at heq
    · simp at heq
    · obtain rfl := Except.ok.inj heq
      obtain ⟨it, _, hit⟩ := List.mem_filterMap.mp hm
      obtain ⟨d, hpd, hnlt⟩ := extract_news_item_data_sound hit
      exact ⟨d, hpd, Date.le_of_not_lt hnlt⟩

/-- C1, witness: the amended theorem applied to concrete harvest calls of
each of the four client-side-filtering sources. -/
theorem claim_C1_witness :
    (∃ dt, achDocW.pub_date = .vDT dt ∧ Date.le dtW.date dt.date) ∧
    (∃ d, cbrDocW.pub_date = .vStr (formatDate d) ∧ Date.le dtW.date d) ∧
    (∃ d, newsDocW.pub_date = .vStr (formatDate d) ∧ Date.le dtW.date d) ∧
    (∃ d, roskDocW.pub_date = .vStr (formatDate d) ∧ Date.le dtW.date d) :=
  ⟨claim_C1_amended.1 dtW achFetchW achDocW (by decide),
   claim_C1_amended.2.1 dtW cbrFetchW [cbrDocW] cbrDocW rfl (by decide),
   claim_C1_amended.2.2.1 dtW newsFetchOnePageW 5 newsDocW (by decide),
   claim_C1_amended.2.2.2 dtW roskFetchW [roskDocW] roskDocW rfl (by decide)⟩

/-- C10.  get_ach_latest_docs issues exactly one fetch per call, of the
fixed URL carrying count=100 and page=1, for every cutoff and fetcher
behavior; its result never exceeds the size of that single page, hence
never exceeds 100 documents when the server honors count=100. -/
theorem claim_C10 :
    ∀ (start : DateTime) (fetch : String → AchFetch),
      (get_ach_latest_docs start fetch).2 = [achApiUrl] ∧
      achApiUrl = "https://ach.gov.ru/api/v1/controls/list?count=100&page=1" ∧
      (∀ resp, fetch achApiUrl = .ok resp →
        (get_ach_latest_docs start fetch).1.length ≤ (resp.items.getD []).length) ∧
      (∀ resp, fetch achApiUrl = .ok resp → (resp.items.getD []).length ≤ 100 →
        (get_ach_latest_docs start fetch).1.length ≤ 100) := by
  intro start fetch
  refine ⟨?_, rfl, ?_, ?_⟩
  · rcases hf : fetch achApiUrl with _ | _ | resp <;>
      simp [get_ach_latest_docs, hf]
  · intro resp hresp
    simp only [get_ach_latest_docs, hresp]
    exact List.length_filterMap_le _ _
  · intro resp hresp hlen
    have h1 : (get_ach_latest_docs start fetch).1.length ≤
        (resp.items.getD []).length := by
      simp only [get_ach_latest_docs, hresp]
      exact List.length_filterMap_le _ _
    omega

/-- C10, witness: the single-page call on the concrete ach fixture. -/
theorem claim_C10_witness :
    (get_ach_latest_docs dtW achFetchW).2 = [achApiUrl] ∧
    (get_ach_latest_docs dtW achFetchW).1.length ≤ 100 :=
  ⟨(claim_C10 dtW achFetchW).1,
   (claim_C10 dtW achFetchW).2.2.2 ⟨some [achItemW]⟩ rfl (by decide)⟩

/-- C7.  An empty first page makes each pagination loop stop after exactly
one fetch with an empty result; an ach response with zero items yields the
empty list; and a first page whose very first item is already older than
the cutoff also yields an empty result after one fetch (zero qualifying
items is an empty result, not an error). -/
theorem claim_C7 :
    (∀ (start : DateTime) (fetch : Nat → NewsPage) (fuel : Nat),
       fetch 0 = .ok [] →
       get_latest_cbr_news start fetch (fuel + 1) = .finished [] 1) ∧
    (∀ (start fin : DateTime) (fetch : Nat → KremlinPage) (fuel : Nat),
       fetch 1 = .entries [] →
       get_latest_kremlin_docs start fin fetch (fuel + 1) = .finished [] 1) ∧
    (∀ (start fin : DateTime) (fetch : Nat → KremlinPage) (fuel : Nat),
       fetch 1 = .noContainer →
       get_latest_kremlin_docs start fin fetch (fuel + 1) = .finished [] 1) ∧
    (∀ (start : DateTime) (fetch : String → AchFetch) (resp : AchResponse),
       fetch achApiUrl = .ok resp → resp.items.getD [] = [] →
       (get_ach_latest_docs start fetch).1 = []) ∧
    (∀ (start : DateTime) (fetch : Nat → NewsPage) (fuel : Nat)
       (it : CbrNewsItem) (rest : List CbrNewsItem) (dt : DateTime),
       fetch 0 = .ok (it :: rest) → newsItemDT it = some dt →
       Date.lt dt.date start.date →
       get_latest_cbr_news start fetch (fuel + 1) = .finished [] 1) := by
  refine ⟨?_, ?_, ?_, ?_, ?_⟩
  · intro start fetch fuel h
    simp [get_latest_cbr_news, cbrNewsLoop, h]
  · intro start fin fetch fuel h
    simp [get_latest_kremlin_docs, kremlinLoop, h]
  · intro start fin fetch fuel h
    simp [get_latest_kremlin_docs, kremlinLoop, h]
  · intro start fetch resp hresp hempty
    simp [get_ach_latest_docs, hresp, hempty]
  · intro start fetch fuel it rest dt h hdt hlt
    simp [get_latest_cbr_news, cbrNewsLoop, h, scanNewsItems, hdt, if_pos hlt]

/-- C7, witness: concrete empty-first-page and pre-cutoff-first-item runs
for each loop. -/
theorem claim_C7_witness :
    get_latest_cbr_news dtW (fun _ => .ok []) 4 = .finished [] 1 ∧
    get_latest_kremlin_docs dtW dtW (fun _ => .entries []) 4 = .finished [] 1 ∧
    get_latest_kremlin_docs dtW dtW (fun _ => .noContainer) 4 = .finished [] 1 ∧
    (get_ach_latest_docs dtW (fun _ => .ok ⟨some []⟩)).1 = [] ∧
    get_latest_cbr_news ⟨⟨2027, 1, 1⟩, 0⟩ newsFetchOnePageW 4 = .finished [] 1 :=
  ⟨claim_C7.1 dtW (fun _ => .ok []) 3 rfl,
   claim_C7.2.1 dtW dtW (fun _ => .entries []) 3 rfl,
   claim_C7.2.2.1 dtW dtW (fun _ => .noContainer) 3 rfl,
   claim_C7.2.2.2.1 dtW (fun _ => .ok ⟨some []⟩) ⟨some []⟩ rfl rfl,
   claim_C7.2.2.2.2 ⟨⟨2027, 1, 1⟩, 0⟩ newsFetchOnePageW 3 newsItemW []
     ⟨⟨2026, 2, 1⟩, 36000⟩ rfl (by decide) (by decide)⟩

/-- C5.  For a news source serving pages of sizes [10,10,10,3] in
descending date order, where every item before the last one is on or
after the cutoff and the last item of page 4 is strictly older, the loop
issues exactly 4 fetches, stops, and returns the qualifying documents —
whatever the fetcher would serve from page 5 on. -/
theorem claim_C5 :
    ∀ (start : DateTime) (fetch : Nat → NewsPage)
      (l0 l1 l2 l3g : List CbrNewsItem) (lastIt : CbrNewsItem)
      (dt : DateTime) (k : Nat),
      fetch 0 = .ok l0 → fetch 1 = .ok l1 → fetch 2 = .ok l2 →
      fetch 3 = .ok (l3g ++ [lastIt]) →
      l0.length = 10 → l1.length = 10 → l2.length = 10 →
      (l3g ++ [lastIt]).length = 3 →
      (∀ it ∈ l0 ++ l1 ++ l2 ++ l3g, newsFresh start.date it) →
      newsItemDT lastIt = some dt → Date.lt dt.date start.date →
      get_latest_cbr_news start fetch (k + 4)
        = .finished ((l0 ++ l1 ++ l2 ++ l3g).filterMap newsDocOf) 4 := by
  intro start fetch l0 l1 l2 l3g lastIt dt k hf0 hf1 hf2 hf3
    hlen0 hlen1 hlen2 hlen3 hfresh hdt hlt
  have hs0 : scanNewsItems start.date l0 = .allOk (l0.filterMap newsDocOf) :=
    scanNewsItems_eq_allOk (fun it hit => hfresh it (by simp [hit]))
  have hs1 : scanNewsItems start.date l1 = .allOk (l1.filterMap newsDocOf) :=
    scanNewsItems_eq_allOk (fun it hit => hfresh it (by simp [hit]))
  have hs2 : scanNewsItems start.date l2 = .allOk (l2.filterMap newsDocOf) :=
    scanNewsItems_eq_allOk (fun it hit => hfresh it (by simp [hit]))
  have hs3 : scanNewsItems start.date (l3g ++ [lastIt])
      = .cutoffHit (l3g.filterMap newsDocOf) :=
    scanNewsItems_append_cutoff (fun x hx => hfresh x (by simp [hx])) hdt hlt
  have hne0 : l0.isEmpty = false := by cases l0 <;> simp_all
  have hne1 : l1.isEmpty = false := by cases l1 <;> simp_all
  have hne2 : l2.isEmpty = false := by cases l2 <;> simp_all
  have hne3 : (l3g ++ [lastIt]).isEmpty = false := by
    cases l3g <;> simp
  simp [get_latest_cbr_news, cbrNewsLoop, hf0, hf1, hf2, hf3, hne0, hne1,
    hne2, hne3, hs0, hs1, hs2, hs3, List.filterMap_append, List.append_assoc]

/-- The ten-item page used by the C5 witness. -/
def newsL10W : List CbrNewsItem := List.replicate 10 newsItemW

/-- A news item dated 2020-01-01, before the 2026 cutoff. -/
def oldNewsItemW : CbrNewsItem :=
  ⟨some "2020-01-01T00:00:00Z", some "doc0", some "Старое", false, false⟩

/-- A fetcher serving pages of sizes [10,10,10,3] whose last page-4 item
is pre-cutoff, and misbehaving non-empty pages from page 5 on. -/
def newsPagesW : Nat → NewsPage := fun p =>
  if p = 0 then .ok newsL10W
  else if p = 1 then .ok newsL10W
  else if p = 2 then .ok newsL10W
  else if p = 3 then .ok [newsItemW, newsItemW, oldNewsItemW]
  else .ok [newsItemW]

/-- C5, witness: the [10,10,10,3] scenario on concrete pages stops at
exactly 4 fetches. -/
theorem claim_C5_witness :
    get_latest_cbr_news dtW newsPagesW (0 + 4)
      = .finished ((newsL10W ++ newsL10W ++ newsL10W ++
          [newsItemW, newsItemW]).filterMap newsDocOf) 4 :=
  claim_C5 dtW newsPagesW newsL10W newsL10W newsL10W [newsItemW, newsItemW]
    oldNewsItemW ⟨⟨2020, 1, 1⟩, 0⟩ 0 rfl rfl rfl rfl rfl rfl rfl rfl
    (by
      intro it hit
      simp [newsL10W] at hit
      exact hit ▸ ⟨⟨⟨2026, 2, 1⟩, 36000⟩, by decide, by decide⟩)
    (by decide) (by decide)

/-! ### C4: absence of an iteration cap -/

/-- A misbehaving news source: every page is the same non-empty page of
one fresh (post-cutoff) item. -/
def freshForeverFetchW : Nat → NewsPage := fun _ => .ok [newsItemW]

/-- A misbehaving kremlin source: every page shows the same non-empty
entry list. -/
def kremlinForeverFetchW : Nat → KremlinPage :=
  fun _ => .entries [kremlinOldEntryW]

theorem freshForeverLoop :
    ∀ (n page : Nat) (acc : List Document),
      cbrNewsLoop freshForeverFetchW dtW.date n page acc
        = .outOfFuel (acc ++ List.replicate n newsDocW) (page + n) := by
  intro n
  induction n with
  | zero => intro page acc; simp [cbrNewsLoop]
  | succ m ih =>
    intro page acc
    have hscan : scanNewsItems dtW.date [newsItemW] = .allOk [newsDocW] := by
      decide
    simp only [cbrNewsLoop, freshForeverFetchW, hscan, List.isEmpty_cons,
      Bool.false_eq_true, if_false, ih]
    congr 1
    · simp [List.replicate_succ, List.append_assoc]
    · omega

theorem kremlinForeverLoop :
    ∀ (n page : Nat) (acc : List KremlinDoc),
      kremlinLoop kremlinForeverFetchW n page acc
        = .outOfFuel (acc ++ List.replicate n kremlinOldDocW) (page + n - 1) := by
  intro n
  induction n with
  | zero => intro page acc; simp [kremlinLoop]
  | succ m ih =>
    intro page acc
    have hdocs : [kremlinOldEntryW].filterMap
        (fun entry => parse_single_document_entry entry kremlinBaseUrl)
        = [kremlinOldDocW] := by decide
    simp only [kremlinLoop, kremlinForeverFetchW, hdocs, ih]
    congr 1
    · simp [List.replicate_succ, List.append_assoc]
    · omega

/-- The claim's bound property for the news loop: some bound B caps the
number of page fetches however long the loop is allowed to run. -/
def newsFetchesBounded (fetch : Nat → NewsPage) (start : DateTime) : Prop :=
  ∃ B, ∀ fuel, (get_latest_cbr_news start fetch fuel).fetches ≤ B

/-- C4, counterexample.  Against the misbehaving always-fresh source the
number of page requests of get_latest_cbr_news is not bounded by any B:
the loop has no page-count or cursor upper bound fallback. -/
theorem claim_C4_counterexample :
    ¬ newsFetchesBounded freshForeverFetchW dtW := by
  rintro ⟨B, hB⟩
  have h := hB (B + 1)
  have heq : (get_latest_cbr_news dtW freshForeverFetchW (B + 1)).fetches
      = B + 1 := by
    show (cbrNewsLoop freshForeverFetchW dtW.date (B + 1) 0 []).fetches = B + 1
    rw [freshForeverLoop]
    simp [NewsRun.fetches]
  omega

/-- C4, amended.  Neither pagination loop carries an iteration cap:
against a misbehaving source that keeps serving non-empty pages of
qualifying items, after n allotted iterations the news loop has issued n
fetches and is still running, and likewise the kremlin loop — for every
n, so the number of page requests in one harvest call is unbounded. -/
theorem claim_C4_amended :
    (∀ n : Nat, get_latest_cbr_news dtW freshForeverFetchW n
        = .outOfFuel (List.replicate n newsDocW) n) ∧
    (∀ n : Nat, get_latest_kremlin_docs dtW dtW kremlinForeverFetchW n
        = .outOfFuel (List.replicate n kremlinOldDocW) n) := by
  constructor
  · intro n
    show cbrNewsLoop freshForeverFetchW dtW.date n 0 []
        = .outOfFuel (List.replicate n newsDocW) n
    rw [freshForeverLoop]
    simp
  · intro n
    show kremlinLoop kremlinForeverFetchW n 1 []
        = .outOfFuel (List.replicate n kremlinOldDocW) n
    rw [kremlinForeverLoop]
    simp

/-! ### C2: per-item tolerance -/

/-- An ach item the per-item guards skip: missing, empty, or unparsable
DATE_CREATE. -/
def achItemBad (it : AchItem) : Prop :=
  it.dateCreate = none ∨ it.dateCreate = some "" ∨
  ∃ ds, it.dateCreate = some ds ∧ parseAchDate ds = none

/-- A cbr RSS item whose date is missing or unparsable. -/
def cbrItemBadDate (it : CbrRssItem) : Prop :=
  it.pubDate = none ∨ it.pubDate = some none ∨
  ∃ s, it.pubDate = some (some s) ∧ parseRfc2822 (pyStrip s) = none

/-- A roskazna item whose date is missing, falsy, or unparsable. -/
def roskItemBadDate (it : RoskaznaItem) : Prop :=
  it.pubDate = none ∨ it.pubDate = some "" ∨
  ∃ s, it.pubDate = some s ∧ parseRfc2822 s = none

theorem achProcessItem_of_bad {start : DateTime} {it : AchItem}
    (h : achItemBad it) : achProcessItem start it = none := by
  rcases it with ⟨i, n, dc, pv, fr⟩
  rcases h with h | h | ⟨ds, hds, hp⟩ <;>
    simp only [AchItem.dateCreate] at *
  · simp [achProcessItem, h]
  · simp [achProcessItem, h]
  · subst hds
    by_cases hne : ds = ""
    · simp [achProcessItem, hne]
    · simp [achProcessItem, hne, hp]

theorem processCbrRssItem_of_badDate {start : Date} {it : CbrRssItem}
    (h : cbrItemBadDate it) : processCbrRssItem start it = none := by
  rcases it with ⟨t, l, g, dsc, p⟩
  rcases h with h | h | ⟨s, hs, hp⟩ <;>
    simp only [CbrRssItem.pubDate] at *
  · subst h
    rcases t with _ | t <;> rcases l with _ | l <;> simp [processCbrRssItem]
  · subst h
    rcases t with _ | t <;> rcases l with _ | l <;> simp [processCbrRssItem]
  · subst hs
    rcases t with _ | t <;> rcases l with _ | l <;>
      simp [processCbrRssItem, hp]

theorem extract_news_item_data_of_badDate {start : DateTime}
    {it : RoskaznaItem} (h : roskItemBadDate it) :
    extract_news_item_data start it = none := by
  rcases it with ⟨t, l, dsc, p⟩
  rcases h with h | h | ⟨s, hs, hp⟩ <;>
    simp only [RoskaznaItem.pubDate] at *
  · subst h
    simp [extract_news_item_data]
  · subst h
    simp [extract_news_item_data]
  · subst hs
    by_cases hne : s = ""
    · simp [extract_news_item_data, hne]
    · simp [extract_news_item_data, hne, hp]

/-- A news item with an unparsable DT string. -/
def badNewsItemW : CbrNewsItem :=
  ⟨some "garbage", some "docb", some "Плохое", false, false⟩

/-- A news fetcher whose page 0 holds a bad-date item between two good
ones and whose page 1 holds another good item. -/
def badPageFetchW : Nat → NewsPage := fun p =>
  if p = 0 then .ok [newsItemW, badNewsItemW, newsItemW]
  else if p = 1 then .ok [newsItemW]
  else .ok []

/-- C2, counterexample.  On a page holding one bad-date item between two
good ones (with a further good page behind it), get_latest_cbr_news keeps
only the documents collected before the bad item and stops paginating
after one fetch: the KeyError/ValueError handler sits at page level and
breaks the loop, so the harvest does not skip just the bad item. -/
theorem claim_C2_counterexample :
    get_latest_cbr_news dtW badPageFetchW 10 = .finished [newsDocW] 1 ∧
    (get_latest_cbr_news dtW badPageFetchW 10).docs
      ≠ [newsDocW, newsDocW, newsDocW] ∧
    (get_latest_cbr_news dtW badPageFetchW 10).fetches ≠ 2 := by
  refine ⟨by decide, by decide, by decide⟩

/-- C2, amended.  ach_handler, get_latest_cbr_docs and
get_latest_roskazna_docs skip exactly the bad item (removing it from the
page leaves the result unchanged), but in get_latest_cbr_news an
unparsable or missing DT aborts the whole pagination: the call finishes
after the current fetch with only the documents collected before the bad
item. -/
theorem claim_C2_amended :
    (∀ (start : DateTime) (f1 f2 : String → AchFetch)
       (pre post : List AchItem) (it : AchItem),
       f1 achApiUrl = .ok ⟨some (pre ++ it :: post)⟩ →
       f2 achApiUrl = .ok ⟨some (pre ++ post)⟩ →
       achItemBad it →
       (get_ach_latest_docs start f1).1 = (get_ach_latest_docs start f2).1) ∧
    (∀ (start : DateTime) (pre post : List CbrRssItem) (it : CbrRssItem),
       cbrItemBadDate it →
       get_latest_cbr_docs start (.ok (pre ++ it :: post))
         = get_latest_cbr_docs start (.ok (pre ++ post))) ∧
    (∀ (start : DateTime) (pre post : List RoskaznaItem) (it : RoskaznaItem),
       roskItemBadDate it →
       get_latest_roskazna_docs start (.ok (pre ++ it :: post))
         = get_latest_roskazna_docs start (.ok (pre ++ post))) ∧
    (∀ (start : DateTime) (fetch : Nat → NewsPage) (fuel : Nat)
       (good rest : List CbrNewsItem) (bad : CbrNewsItem),
       fetch 0 = .ok (good ++ bad :: rest) →
       (∀ x ∈ good, newsFresh start.date x) →
       newsItemDT bad = none →
       get_latest_cbr_news start fetch (fuel + 1)
         = .finished (good.filterMap newsDocOf) 1) := by
  refine ⟨?_, ?_, ?_, ?_⟩
  · intro start f1 f2 pre post it h1 h2 hbad
    simp [get_ach_latest_docs, h1, h2, List.filterMap_append,
      List.filterMap_cons, achProcessItem_of_bad hbad]
  · intro start pre post it hbad
    simp [get_latest_cbr_docs, List.filterMap_append, List.filterMap_cons,
      processCbrRssItem_of_badDate hbad]
  · intro start pre post it hbad
    simp [get_latest_roskazna_docs, List.filterMap_append,
      List.filterMap_cons, extract_news_item_data_of_badDate hbad]
  · intro start fetch fuel good rest bad hf hfresh hbad
    have hne : (good ++ bad :: rest).isEmpty = false := by
      cases good <;> simp
    have hscan : scanNewsItems start.date (good ++ bad :: rest)
        = .itemError (good.filterMap newsDocOf) :=
      scanNewsItems_append_itemError hfresh hbad
    simp [get_latest_cbr_news, cbrNewsLoop, hf, hne, hscan]

/-- C2, witness: the amended behavior on concrete pages — removing a
bad-date ach item leaves the ach result unchanged, same for cbr and
roskazna RSS items, and the news loop aborts with the pre-bad-item
documents. -/
theorem claim_C2_witness :
    (get_ach_latest_docs dtW
        (fun _ => .ok ⟨some [achItemW, ⟨some "2", some "x", some "вчера", none, []⟩, achItemW]⟩)).1
      = (get_ach_latest_docs dtW (fun _ => .ok ⟨some [achItemW, achItemW]⟩)).1 ∧
    get_latest_cbr_docs dtW (.ok [cbrItemW, ⟨some (some "a"), some (some "b"), some (some "c"), none, none⟩, cbrItemW])
      = get_latest_cbr_docs dtW (.ok [cbrItemW, cbrItemW]) ∧
    get_latest_roskazna_docs dtW (.ok [roskItemW, ⟨some "a", none, none, some "не дата"⟩, roskItemW])
      = get_latest_roskazna_docs dtW (.ok [roskItemW, roskItemW]) ∧
    get_latest_cbr_news dtW badPageFetchW 10
      = .finished ([newsItemW].filterMap newsDocOf) 1 :=
  ⟨claim_C2_amended.1 dtW _ _ [achItemW] [achItemW]
      ⟨some "2", some "x", some "вчера", none, []⟩ rfl rfl
      (Or.inr (Or.inr ⟨"вчера", rfl, by decide⟩)),
   claim_C2_amended.2.1 dtW [cbrItemW] [cbrItemW]
      ⟨some (some "a"), some (some "b"), some (some "c"), none, none⟩
      (Or.inl rfl),
   claim_C2_amended.2.2.1 dtW [roskItemW] [roskItemW]
      ⟨some "a", none, none, some "не дата"⟩
      (Or.inr (Or.inr ⟨"не дата", rfl, by decide⟩)),
   claim_C2_amended.2.2.2 dtW badPageFetchW 9 [newsItemW] [newsItemW]
      badNewsItemW rfl
      (by
        intro x hx
        simp at hx
        exact hx ▸ ⟨⟨⟨2026, 2, 1⟩, 36000⟩, by decide, by decide⟩)
      (by decide)⟩

/-! ### C3: transport errors mid-pagination -/

/-- A news fetcher failing with a transport error from page 1 on. -/
def newsFailFetchW : Nat → NewsPage :=
  fun p => if p = 0 then .ok [newsItemW] else .transportError

/-- An honest news fetcher with the same page 0 and no further data. -/
def newsHonestFetchW : Nat → NewsPage :=
  fun p => if p = 0 then .ok [newsItemW] else .ok []

/-- C3, counterexample.  A transport error on page 2 of
get_latest_cbr_news yields exactly the same value as an honest source
that simply had no second page: the partial result is a plain list
carrying no distinguishable error state.  get_ach_latest_docs on a
transport error returns the same bare empty list as a source with zero
items — indistinguishable from "no new documents". -/
theorem claim_C3_counterexample :
    get_latest_cbr_news dtW newsFailFetchW 10
      = get_latest_cbr_news dtW newsHonestFetchW 10 ∧
    get_latest_cbr_news dtW newsFailFetchW 10 = .finished [newsDocW] 2 ∧
    get_ach_latest_docs dtW (fun _ => .transportError)
      = get_ach_latest_docs dtW (fun _ => .ok ⟨some []⟩) ∧
    (get_ach_latest_docs dtW (fun _ => .transportError)).1 = [] := by
  refine ⟨by decide, by decide, by decide, by decide⟩

/-- C3, amended.  On a transport error mid-pagination,
get_latest_cbr_news silently returns the documents already collected as a
plain list with no error signal, and get_ach_latest_docs returns the
empty list; only get_latest_cbr_docs and get_latest_roskazna_docs
re-raise transport errors to the caller. -/
theorem claim_C3_amended :
    (∀ (start : DateTime) (fetch : Nat → NewsPage) (fuel : Nat)
       (l : List CbrNewsItem) (ds : List Document),
       fetch 0 = .ok l → l.isEmpty = false →
       scanNewsItems start.date l = .allOk ds →
       fetch 1 = .transportError →
       get_latest_cbr_news start fetch (fuel + 2) = .finished ds 2) ∧
    (∀ (start : DateTime) (fetch : String → AchFetch),
       fetch achApiUrl = .transportError →
       get_ach_latest_docs start fetch = ([], [achApiUrl])) ∧
    (∀ start : DateTime,
       get_latest_cbr_docs start .requestError = .error .transport) ∧
    (∀ start : DateTime,
       get_latest_roskazna_docs start .requestError = .error .transport) := by
  refine ⟨?_, ?_, fun _ => rfl, fun _ => rfl⟩
  · intro start fetch fuel l ds hf0 hne hscan hf1
    simp [get_latest_cbr_news, cbrNewsLoop, hf0, hne, hscan, hf1]
  · intro start fetch hf
    simp [get_ach_latest_docs, hf]

/-- C3, witness: the amended behavior at the concrete failing fetchers. -/
theorem claim_C3_witness :
    get_latest_cbr_news dtW newsFailFetchW (8 + 2) = .finished [newsDocW] 2 ∧
    get_ach_latest_docs dtW (fun _ => .transportError) = ([], [achApiUrl]) ∧
    get_latest_cbr_docs dtW .requestError = .error .transport ∧
    get_latest_roskazna_docs dtW .requestError = .error .transport :=
  ⟨claim_C3_amended.1 dtW newsFailFetchW 8 [newsItemW] [newsDocW]
      rfl rfl (by decide) rfl,
   claim_C3_amended.2.1 dtW (fun _ => .transportError) rfl,
   claim_C3_amended.2.2.1 dtW,
   claim_C3_amended.2.2.2 dtW⟩

/-! ### C6: the round-trip of a fully populated item -/

/-- C6, counterexample.  get_ach_latest_docs normalizes a raw item with
every field present into a dict whose pub_date value is the parsed
datetime object itself, not a string — so re-serializing it cannot
reproduce a pub_date string formatted YYYY-MM-DD. -/
theorem claim_C6_counterexample :
    (get_ach_latest_docs dtW achFetchW).1 = [achDocW] ∧
    achDocW.pub_date = .vDT ⟨⟨2026, 1, 27⟩, 0⟩ ∧
    achDocW.pub_date.isStr = false := by
  refine ⟨by decide, rfl, rfl⟩

/-- C6, amended.  For get_latest_cbr_docs, get_latest_cbr_news and
get_latest_roskazna_docs, normalizing a raw item with all fields present
reproduces its id, title and link (modulo the strip the code applies) and
renders pub_date as the YYYY-MM-DD string of the parsed date, whatever
the source format (RFC-2822 feed form or ISO-8601 with offset);
get_ach_latest_docs instead stores the parsed datetime object in
pub_date.  The spec's example conversions of the three source formats
hold. -/
theorem claim_C6_amended :
    (∀ (start : Date) (it : CbrRssItem) (t l g dx s : String) (dt : DateTime),
       it.title = some (some t) → it.link = some (some l) →
       it.guid = some (some g) → it.description = some (some dx) →
       it.pubDate = some (some s) →
       parseRfc2822 (pyStrip s) = some dt → Date.lt start dt.date →
       processCbrRssItem start it
         = some ⟨.vStr (pyStrip g), .vStr (pyStrip t), .vStr (pyStrip dx),
                 .vStr (pyStrip l), .vStr (formatDate dt.date)⟩) ∧
    (∀ (it : CbrNewsItem) (s : String) (dt : DateTime),
       it.dt = some s → parseIsoDateTime s = some dt →
       newsDocOf it
         = some ⟨.vStr (it.doc_htm.getD ""),
                 .vStr (drop_nbsp (it.name_doc.getD "")),
                 .vStr (newsMetaString it),
                 .vStr ("https://cbr.ru/press/event/?id=" ++ it.doc_htm.getD ""),
                 .vStr (formatDate dt.date)⟩) ∧
    (∀ (start : DateTime) (it : RoskaznaItem) (t l dx s : String) (dt : DateTime),
       it.title = some t → it.link = some l → it.description = some dx →
       it.pubDate = some s → s ≠ "" →
       parseRfc2822 s = some dt → ¬ Date.lt dt.date start.date →
       extract_news_item_data start it
         = some ⟨.vAbsent, .vStr (clean_cdata t),
                 .vStr (get_whole_HTML_element_text (clean_cdata dx)),
                 .vStr l, .vStr (formatDate dt.date)⟩) ∧
    (∀ (start : DateTime) (it : AchItem) (i n ds pv : String) (d : Date),
       it.itemId = some i → it.name = some n → it.dateCreate = some ds →
       it.previewText = some pv → ds ≠ "" →
       parseAchDate ds = some d → DateTime.le start ⟨d, 0⟩ →
       achProcessItem start it
         = some ⟨.vStr i, .vStr n, .vStr (pyStrip (soupGetText pv)),
                 optPy (match it.filesReport with
                        | [] => none
                        | f :: _ => f),
                 .vDT ⟨d, 0⟩⟩) ∧
    (parseAchDate "27 января 2026" = some ⟨2026, 1, 27⟩ ∧
     formatDate ⟨2026, 1, 27⟩ = "2026-01-27") ∧
    (parseRfc2822 "Mon, 29 Dec 2025 16:43:00 +0300"
        = some ⟨⟨2025, 12, 29⟩, 60180⟩ ∧
     formatDate ⟨2025, 12, 29⟩ = "2025-12-29") ∧
    (parseIsoDateTime "2026-02-01T10:00:00Z" = some ⟨⟨2026, 2, 1⟩, 36000⟩ ∧
     formatDate ⟨2026, 2, 1⟩ = "2026-02-01") := by
  refine ⟨?_, ?_, ?_, ?_, ⟨by decide, by decide⟩, ⟨by decide, by decide⟩,
    ⟨by decide, by decide⟩⟩
  · intro start it t l g dx s dt ht hl hg hd hp hparse hlt
    rcases it with ⟨t0, l0, g0, d0, p0⟩
    simp only [CbrRssItem.title, CbrRssItem.link, CbrRssItem.guid,
      CbrRssItem.description, CbrRssItem.pubDate] at ht hl hg hd hp
    subst ht hl hg hd hp
    simp [processCbrRssItem, hparse, hlt]
  · intro it s dt hs hparse
    rcases it with ⟨s0, dh, nd, imp, vid⟩
    simp only [CbrNewsItem.dt] at hs
    subst hs
    simp [newsDocOf, newsItemDT, hparse, mkNewsDoc]
  · intro start it t l dx s dt ht hl hd hp hne hparse hnlt
    rcases it with ⟨t0, l0, d0, p0⟩
    simp only [RoskaznaItem.title, RoskaznaItem.link,
      RoskaznaItem.description, RoskaznaItem.pubDate] at ht hl hd hp
    subst ht hl hd hp
    simp [extract_news_item_data, hne, hparse, hnlt, optPy]
  · intro start it i n ds pv d hi hn hds hpv hne hparse hle
    rcases it with ⟨i0, n0, d0, p0, f0⟩
    simp only [AchItem.itemId, AchItem.name, AchItem.dateCreate,
      AchItem.previewText] at hi hn hds hpv
    subst hi hn hds hpv
    simp [achProcessItem, hne, hparse, hle, optPy]

/-- C6, witness: the amended round-trip at the concrete fixtures of each
source, where the three RSS/JSON sources produce YYYY-MM-DD pub_date
strings and the ach source produces the datetime object. -/
theorem claim_C6_witness :
    processCbrRssItem dtW.date cbrItemW = some cbrDocW ∧
    newsDocOf newsItemW = some newsDocW ∧
    extract_news_item_data dtW roskItemW = some roskDocW ∧
    achProcessItem dtW achItemW = some achDocW :=
  ⟨(claim_C6_amended.1 dtW.date cbrItemW "Указание" "https://cbr.ru/doc"
      "guid-1" "Описание" "Mon, 02 Feb 2026 16:43:00 +0300"
      ⟨⟨2026, 2, 2⟩, 60180⟩ rfl rfl rfl rfl rfl (by decide)
      (by decide)).trans (by decide),
   (claim_C6_amended.2.1 newsItemW "2026-02-01T10:00:00Z"
      ⟨⟨2026, 2, 1⟩, 36000⟩ rfl (by decide)).trans (by decide),
   (claim_C6_amended.2.2.1 dtW roskItemW "Заголовок" "https://roskazna.gov.ru/n"
      "<p>текст</p> ещё" "Mon, 02 Feb 2026 13:05:17 +0300"
      ⟨⟨2026, 2, 2⟩, 47117⟩ rfl rfl rfl rfl (by decide) (by decide)
      (by decide)).trans (by decide),
   (claim_C6_amended.2.2.2.1 dtW achItemW "123" "Проверка" "27 января 2026"
      "<p>превью</p>" ⟨2026, 1, 27⟩ rfl rfl rfl rfl (by decide) (by decide)
      (by decide)).trans (by decide)⟩

/-! ### C8: items with a missing date -/

/-- A kremlin entry with title and link but no time element. -/
def kremlinNoTimeEntryW : KremlinEntry :=
  ⟨some ⟨some ⟨some "/acts/2", "Распоряжение", some "О Иванове И.И.", none⟩⟩⟩

/-- The document the kremlin normalizer builds from that dateless entry. -/
def kremlinNoTimeDocW : KremlinDoc :=
  ⟨"Распоряжение", "О Иванове И.И.", "", .vStr "", "http://kremlin.ru/acts/2"⟩

/-- A kremlin fetcher serving the dateless entry on page 1. -/
def kremlinNoTimeFetchW : Nat → KremlinPage :=
  fun p => if p = 1 then .entries [kremlinNoTimeEntryW] else .noContainer

/-- C8, counterexample.  kremlin_handler.parse_single_document_entry does
not return None for an item whose time element (the date) is absent: it
returns a document with empty date strings, and that document reaches the
harvest result — a returned document lacking a publication date. -/
theorem claim_C8_counterexample :
    parse_single_document_entry kremlinNoTimeEntryW kremlinBaseUrl
      = some kremlinNoTimeDocW ∧
    kremlinNoTimeDocW.date = "" ∧
    (get_latest_kremlin_docs dtW dtW kremlinNoTimeFetchW 10).docs
      = [kremlinNoTimeDocW] := by
  refine ⟨by decide, rfl, by decide⟩

/-- C8, amended.  The ach, cbr-docs and roskazna normalizers do return
null for an item whose date field is absent, and no ach document ever
lacks a date; the kremlin normalizer returns null only for a missing
title, missing anchor or falsy href, and yields a document with empty
date strings when the time element is absent. -/
theorem claim_C8_amended :
    (∀ (start : DateTime) (it : AchItem), it.dateCreate = none →
       achProcessItem start it = none) ∧
    (∀ (start : Date) (it : CbrRssItem), it.pubDate = none →
       processCbrRssItem start it = none) ∧
    (∀ (start : DateTime) (it : RoskaznaItem), it.pubDate = none →
       extract_news_item_data start it = none) ∧
    (∀ (start : DateTime) (fetch : String → AchFetch) (doc : Document),
       doc ∈ (get_ach_latest_docs start fetch).1 →
       ∃ dt, doc.pub_date = .vDT dt) ∧
    (∀ e : KremlinEntry, e.titleEl = none →
       parse_single_document_entry e kremlinBaseUrl = none) ∧
    (∀ (e : KremlinEntry) (te : KremlinTitleEl),
       e.titleEl = some te → te.linkEl = none →
       parse_single_document_entry e kremlinBaseUrl = none) ∧
    (∀ (e : KremlinEntry) (te : KremlinTitleEl) (le : KremlinLinkEl),
       e.titleEl = some te → te.linkEl = some le → le.timeEl = none →
       ∀ href, le.href = some href → href ≠ "" →
       ∃ d, parse_single_document_entry e kremlinBaseUrl = some d ∧
         d.date = "" ∧ d.datetimeAttr = .vStr "") := by
  refine ⟨?_, ?_, ?_, ?_, ?_, ?_, ?_⟩
  · intro start it h
    exact achProcessItem_of_bad (Or.inl h)
  · intro start it h
    exact processCbrRssItem_of_badDate (Or.inl h)
  · intro start it h
    exact extract_news_item_data_of_badDate (Or.inl h)
  · intro start fetch doc hm
    rcases hf : fetch achApiUrl with _ | _ | resp <;>
      simp only [get_ach_latest_docs, hf] at hm
    · simp at hm
    · simp at hm
    · obtain ⟨it, _, hit⟩ := List.mem_filterMap.mp hm
      obtain ⟨dt, hpd, _⟩ := achProcessItem_sound hit
      exact ⟨dt, hpd⟩
  · intro e h
    simp [parse_single_document_entry, h]
  · intro e te h1 h2
    simp [parse_single_document_entry, h1, h2]
  · intro e te le h1 h2 h3 href h4 h5
    simp only [parse_single_document_entry, h1, h2, h4, h3, if_neg h5]
    exact ⟨_, rfl, rfl, rfl⟩

/-- C8, witness: the amended behavior on concrete dateless items of every
source. -/
theorem claim_C8_witness :
    achProcessItem dtW ⟨some "1", some "x", none, none, []⟩ = none ∧
    processCbrRssItem dtW.date
      ⟨some (some "a"), some (some "b"), none, none, none⟩ = none ∧
    extract_news_item_data dtW ⟨some "a", none, none, none⟩ = none ∧
    (∃ dt, achDocW.pub_date = .vDT dt) ∧
    parse_single_document_entry (⟨none⟩ : KremlinEntry) kremlinBaseUrl
      = none ∧
    parse_single_document_entry (⟨some ⟨none⟩⟩ : KremlinEntry) kremlinBaseUrl
      = none ∧
    (∃ d, parse_single_document_entry kremlinNoTimeEntryW kremlinBaseUrl
        = some d ∧ d.date = "" ∧ d.datetimeAttr = .vStr "") :=
  ⟨claim_C8_amended.1 dtW ⟨some "1", some "x", none, none, []⟩ rfl,
   claim_C8_amended.2.1 dtW.date
     ⟨some (some "a"), some (some "b"), none, none, none⟩ rfl,
   claim_C8_amended.2.2.1 dtW ⟨some "a", none, none, none⟩ rfl,
   claim_C8_amended.2.2.2.1 dtW achFetchW achDocW (by decide),
   claim_C8_amended.2.2.2.2.1 ⟨none⟩ rfl,
   claim_C8_amended.2.2.2.2.2.1 ⟨some ⟨none⟩⟩ ⟨none⟩ rfl rfl,
   claim_C8_amended.2.2.2.2.2.2 kremlinNoTimeEntryW
     ⟨some ⟨some "/acts/2", "Распоряжение", some "О Иванове И.И.", none⟩⟩
     ⟨some "/acts/2", "Распоряжение", some "О Иванове И.И.", none⟩
     rfl rfl rfl "/acts/2" rfl (by decide)⟩

/-! ### C9: the meta field -/

theorem textChunks_no_lt :
    ∀ (l : List Char) (b : Bool), '<' ∉ (textChunks b l).flatten := by
  intro l
  induction l with
  | nil => intro b; cases b <;> simp [textChunks]
  | cons c rest ih =>
    intro b
    cases b
    · by_cases hc : c = '<'
      · have : textChunks false (c :: rest) = [] :: textChunks true rest := by
          simp [textChunks, hc]
        rw [this]
        simpa using ih true
      · cases hr : textChunks false rest with
        | nil =>
          have : textChunks false (c :: rest) = [[c]] := by
            simp [textChunks, hc, hr]
          rw [this]
          simp [Ne.symm hc]
        | cons h t =>
          have : textChunks false (c :: rest) = (c :: h) :: t := by
            simp [textChunks, hc, hr]
          rw [this]
          have ihr := ih false
          rw [hr] at ihr
          simp only [List.flatten_cons, List.mem_append, List.mem_cons,
            not_or] at *
          exact ⟨⟨Ne.symm hc, ihr.1⟩, ihr.2⟩
    · by_cases hc : c = '>'
      · have : textChunks true (c :: rest) = textChunks false rest := by
          simp [textChunks, hc]
        rw [this]
        exact ih false
      · have : textChunks true (c :: rest) = textChunks true rest := by
          simp [textChunks, hc]
        rw [this]
        exact ih true

/-- An item identical to roskItemW except that its description element is
absent. -/
def roskNoDescItemW : RoskaznaItem :=
  ⟨some "Заголовок", some "https://roskazna.gov.ru/n", none,
   some "Mon, 02 Feb 2026 13:05:17 +0300"⟩

/-- An item identical to cbrItemW except that its description element is
present with None text (an empty element). -/
def cbrNoneDescItemW : CbrRssItem :=
  ⟨some (some "Указание"), some (some "https://cbr.ru/doc"), some (some "guid-1"),
   some none, some (some "Mon, 02 Feb 2026 16:43:00 +0300")⟩

/-- An item identical to cbrItemW except that its description text
carries HTML markup. -/
def cbrTagDescItemW : CbrRssItem :=
  ⟨some (some "Указание"), some (some "https://cbr.ru/doc"), some (some "guid-1"),
   some (some "<b>Описание</b>"), some (some "Mon, 02 Feb 2026 16:43:00 +0300")⟩

/-- The document get_latest_cbr_docs builds from cbrTagDescItemW: its
meta keeps the markup verbatim. -/
def cbrTagDocW : Document :=
  ⟨.vStr "guid-1", .vStr "Указание", .vStr "<b>Описание</b>",
   .vStr "https://cbr.ru/doc", .vStr "2026-02-02"⟩

/-- C9, counterexample.  Three failures of the claim at concrete inputs.
Roskazna: two items identical except for the description — with the
description absent, extract_news_item_data drops the whole item (the
inner except leaves news_description unbound and building the dict
raises into the outer except, which returns None).  cbr-docs: two items
identical except for the description — with the description element
present but its text None, document_description.text.strip() raises
AttributeError inside the meta expression and the item is dropped.  And
a kept cbr-docs item's meta is only whitespace-stripped, not
HTML-stripped: markup in the description survives into the meta, which
is therefore not tag-free. -/
theorem claim_C9_counterexample :
    extract_news_item_data dtW roskNoDescItemW = none ∧
    extract_news_item_data dtW roskItemW = some roskDocW ∧
    processCbrRssItem dtW.date cbrNoneDescItemW = none ∧
    processCbrRssItem dtW.date cbrItemW = some cbrDocW ∧
    processCbrRssItem dtW.date cbrTagDescItemW = some cbrTagDocW ∧
    cbrTagDocW.meta = .vStr "<b>Описание</b>" ∧
    '<' ∈ "<b>Описание</b>".data := by
  refine ⟨by decide, by decide, by decide, by decide, by decide, rfl, by decide⟩

/-- C9, amended.  In ach_handler the meta computation is total and
harmless: whether an item is kept never depends on PREVIEW_TEXT, an
absent PREVIEW_TEXT degrades the meta to the empty string, and the
BeautifulSoup text extraction never leaves a tag opener in the meta.  In
get_latest_cbr_news the meta is one of four fixed flag strings and an
item is kept exactly when its DT parses.  In get_latest_cbr_docs a
description element present with None text raises in the meta
expression and drops the item, and the meta of a kept item is the
description text only whitespace-stripped — HTML tags pass through.  In
get_latest_roskazna_docs an item whose description element is absent is
dropped entirely. -/
theorem claim_C9_amended :
    (∀ (start : DateTime) (it : AchItem) (pv : Option String),
       (achProcessItem start { it with previewText := pv }).isSome
         = (achProcessItem start it).isSome) ∧
    (∀ (start : DateTime) (it : AchItem) (doc : Document),
       it.previewText = none → achProcessItem start it = some doc →
       doc.meta = .vStr "") ∧
    (∀ s : String, '<' ∉ (soupGetText s).data) ∧
    (∀ it : CbrNewsItem,
       (newsDocOf it).isSome = (newsItemDT it).isSome) ∧
    (∀ it : CbrNewsItem,
       newsMetaString it = "" ∨ newsMetaString it = "Важное" ∨
       newsMetaString it = "Видео" ∨ newsMetaString it = "Важное, Видео") ∧
    (∀ (start : Date) (it : CbrRssItem), it.description = some none →
       processCbrRssItem start it = none) ∧
    (∀ (start : Date) (it : CbrRssItem) (t l g dx s : String) (dt : DateTime),
       it.title = some (some t) → it.link = some (some l) →
       it.guid = some (some g) → it.description = some (some dx) →
       it.pubDate = some (some s) →
       parseRfc2822 (pyStrip s) = some dt → Date.lt start dt.date →
       ∃ doc, processCbrRssItem start it = some doc ∧
         doc.meta = .vStr (pyStrip dx)) ∧
    (∀ (start : DateTime) (it : RoskaznaItem), it.description = none →
       extract_news_item_data start it = none) := by
  refine ⟨?_, ?_, ?_, ?_, ?_, ?_, ?_, ?_⟩
  · intro start it pv
    rcases it with ⟨i0, n0, d0, p0, f0⟩
    cases d0 with
    | none => rfl
    | some ds =>
      by_cases hds : ds = ""
      · simp [achProcessItem, hds]
      · cases hp : parseAchDate ds with
        | none => simp [achProcessItem, hds, hp]
        | some d =>
          by_cases hle : DateTime.le start ⟨d, 0⟩ <;>
            simp [achProcessItem, hds, hp, hle]
  · intro start it doc hpv h
    rcases it with ⟨i0, n0, d0, p0, f0⟩
    simp only [AchItem.previewText] at hpv
    subst hpv
    unfold achProcessItem at h
    repeat' split at h
    all_goals first
      | (obtain rfl := Option.some.inj h
         show PyVal.vStr (pyStrip (soupGetText "")) = PyVal.vStr ""
         decide)
      | exact absurd h (by simp)
  · intro s
    exact textChunks_no_lt s.data false
  · intro it
    rcases it with ⟨s0, dh, nd, imp, vid⟩
    cases s0 with
    | none => rfl
    | some s =>
      cases hp : parseIsoDateTime s <;>
        simp [newsDocOf, newsItemDT, hp]
  · intro it
    rcases it with ⟨s0, dh, nd, imp, vid⟩
    cases imp <;> cases vid
    · exact Or.inl rfl
    · exact Or.inr (Or.inr (Or.inl rfl))
    · exact Or.inr (Or.inl rfl)
    · exact Or.inr (Or.inr (Or.inr rfl))
  · intro start it hd
    rcases it with ⟨t0, l0, g0, d0, p0⟩
    simp only [CbrRssItem.description] at hd
    subst hd
    unfold processCbrRssItem
    repeat' split
    all_goals first
      | rfl
      | simp_all
  · intro start it t l g dx s dt ht hl hg hd hp hparse hlt
    rcases it with ⟨t0, l0, g0, d0, p0⟩
    simp only [CbrRssItem.title, CbrRssItem.link, CbrRssItem.guid,
      CbrRssItem.description, CbrRssItem.pubDate] at ht hl hg hd hp
    subst ht hl hg hd hp
    simp only [processCbrRssItem, hparse, if_pos hlt]
    exact ⟨_, rfl, rfl⟩
  · intro start it hd
    rcases it with ⟨t0, l0, d0, p0⟩
    simp only [RoskaznaItem.description] at hd
    subst hd
    cases p0 with
    | none => rfl
    | some s =>
      simp only [extract_news_item_data]
      repeat' split
      all_goals rfl

/-- C9, witness: the amended facts at the concrete fixtures of every
source, including the cbr-docs drop on a None-text description and the
verbatim (unstripped) cbr-docs meta. -/
theorem claim_C9_witness :
    (achProcessItem dtW { achItemW with previewText := none }).isSome
      = (achProcessItem dtW achItemW).isSome ∧
    (achProcessItem dtW { achItemW with previewText := none }
        = some { achDocW with meta := .vStr "" } →
      ({ achDocW with meta := .vStr "" } : Document).meta = .vStr "") ∧
    '<' ∉ (soupGetText "<p>превью</p>").data ∧
    (newsDocOf newsItemW).isSome = (newsItemDT newsItemW).isSome ∧
    (newsMetaString newsItemW = "" ∨ newsMetaString newsItemW = "Важное" ∨
     newsMetaString newsItemW = "Видео" ∨
     newsMetaString newsItemW = "Важное, Видео") ∧
    processCbrRssItem dtW.date cbrNoneDescItemW = none ∧
    (∃ doc, processCbrRssItem dtW.date cbrTagDescItemW = some doc ∧
       doc.meta = .vStr (pyStrip "<b>Описание</b>")) ∧
    extract_news_item_data dtW roskNoDescItemW = none :=
  ⟨claim_C9_amended.1 dtW achItemW none,
   fun _ => claim_C9_amended.2.1 dtW { achItemW with previewText := none }
     { achDocW with meta := .vStr "" } rfl (by decide),
   claim_C9_amended.2.2.1 "<p>превью</p>",
   claim_C9_amended.2.2.2.1 newsItemW,
   claim_C9_amended.2.2.2.2.1 newsItemW,
   claim_C9_amended.2.2.2.2.2.1 dtW.date cbrNoneDescItemW rfl,
   claim_C9_amended.2.2.2.2.2.2.1 dtW.date cbrTagDescItemW "Указание"
     "https://cbr.ru/doc" "guid-1" "<b>Описание</b>"
     "Mon, 02 Feb 2026 16:43:00 +0300" ⟨⟨2026, 2, 2⟩, 60180⟩
     rfl rfl rfl rfl rfl (by decide) (by decide),
   claim_C9_amended.2.2.2.2.2.2.2 dtW roskNoDescItemW rfl⟩
